import Mathlib

/-!
# Verification of goserve's response-interception and handler-composition pipeline

Shallow embedding of the handler pipeline of `johnsto/goserve`
(`handlers.go`, `goserve.go`, `config.go`).

Modelling conventions:
* A handler's interaction with its `http.ResponseWriter` at a fixed request is a
  straight-line script of writer operations (`HAction`): header commits, body
  writes, header-map mutations, and panics with a non-token value (`fault`).
* The `http.ResponseWriter` interface is the record `Writer σ`; the concrete
  client-visible response state is `Resp` (headers present at commit time, the
  first committed status, and the body chunk sequence).  As in `net/http`, a
  body write on an uncommitted response implicitly commits status 200, and a
  second `WriteHeader` on a committed response is ignored.
* Generated directory listings are represented symbolically by the chunk
  constructor `Chunk.listing` (their rendered text is irrelevant to every
  property considered here); gzip-compressed output of a chunk is represented
  symbolically by `Chunk.gzipped`.
* Go `panic`/`recover` is modelled by explicit outcome values: the
  interception short-circuit token of `InterceptResponseWriter` becomes the
  outcome `RunOut.intercepted`, and any other panic payload becomes
  `RunOut.fault e` (payloads restricted to `Nat`, which suffices to express
  the `p == 1` comparison in `goserve.go`).
-/

namespace Goserve

/-- A chunk of response body bytes.  `listing` stands for the HTML directory
listing that `net/http`'s `dirList` generates for the named directory, and
`gzipped c` for the gzip encoding of chunk `c` (neither rendering is spelled
out byte-for-byte: no property here inspects their contents). -/
inductive Chunk where
  | bytes (s : String)
  | listing (dir : String)
  | gzipped (c : Chunk)
deriving DecidableEq, Repr

/-- Whether a chunk is a generated directory listing. -/
def Chunk.isListing : Chunk → Bool
  | .listing _ => true
  | _ => false

/-- Byte length reported back to the caller of `Write` (gzip's `Write`
reports the uncompressed input length; the length of a generated listing is
not modelled, no claim depends on it). -/
def Chunk.len : Chunk → Nat
  | .bytes s => s.length
  | .listing _ => 0
  | .gzipped c => c.len

/-- The request fields the pipeline reads. -/
structure Request where
  remoteAddr : String := ""
  host : String := ""
  method : String := ""
  requestURI : String := ""
  acceptEncoding : String := ""
deriving DecidableEq, Repr

/-- One operation a handler performs against its response writer.
`fault e` is a panic with a non-token payload `e` raised at that point of the
handler's execution. -/
inductive HAction where
  | writeHeader (status : Int)
  | write (c : Chunk)
  | setHeader (k v : String)
  | fault (e : Nat)
deriving DecidableEq, Repr

/-- `true` iff the script contains no `fault` action. -/
def noFault : List HAction → Bool
  | [] => true
  | .fault _ :: _ => false
  | _ :: rest => noFault rest

/-- `true` iff the script contains no `writeHeader` action. -/
def noWH : List HAction → Bool
  | [] => true
  | .writeHeader _ :: _ => false
  | _ :: rest => noWH rest

/-- `true` iff the script performs at most one `writeHeader`, and not after
any body write: the discipline under which the status a wrapping logger
records coincides with the status the client observes (a superfluous second
`WriteHeader`, or one issued after an implicit commit by a body write, is
ignored on the wire but still overwrites the logger's record). -/
def singleCommit : List HAction → Bool
  | [] => true
  | .writeHeader _ :: rest => noWH rest
  | .write _ :: rest => noWH rest
  | .setHeader _ _ :: rest => singleCommit rest
  | .fault _ :: rest => singleCommit rest

/-- The body chunks a script writes. -/
def bodyOf : List HAction → List Chunk
  | [] => []
  | .write c :: rest => c :: bodyOf rest
  | _ :: rest => bodyOf rest

/-- `true` iff the script performs a header commit before its first body
write (ignoring header-map mutations), i.e. it never relies on the implicit
200 commit. -/
def commitsFirst : List HAction → Bool
  | [] => false
  | .writeHeader _ :: _ => true
  | .setHeader _ _ :: rest => commitsFirst rest
  | _ => false

/-! ## Go header maps (`net/textproto`)

`http.Header.Get`/`Set` canonicalise the key via
`textproto.CanonicalMIMEHeaderKey`: if every byte is a valid header-field
byte, letters are upper-cased at the start and after each `-` and lower-cased
elsewhere; otherwise the key is used as-is. -/

/-- Valid header-field bytes per `net/textproto` (`isTokenTable`):
alphanumerics and `!#$%&'*+-.^_`|~` (punctuation written via codepoints). -/
def validHeaderFieldChar (c : Char) : Bool :=
  c.isAlphanum ||
    ([33, 35, 36, 37, 38, 39, 42, 43, 45, 46, 94, 95, 96, 124, 126].map
      Char.ofNat).contains c

/-- Case-canonicalisation pass: `upper` records whether the previous byte was
a `-` (or we are at the start). -/
def canonList : Bool → List Char → List Char
  | _, [] => []
  | upper, c :: rest =>
    (if upper then c.toUpper else c.toLower) :: canonList (c = '-') rest

/-- Go `textproto.CanonicalMIMEHeaderKey`. -/
def canonicalMIMEHeaderKey (s : String) : String :=
  if s.toList.all validHeaderFieldChar then ⟨canonList true s.toList⟩ else s

/-- Header maps as association lists keyed by canonical names. -/
abbrev Hdrs := List (String × String)

/-- Lookup by an already-canonical key (empty string when absent, mirroring
`textproto.MIMEHeader.Get`). -/
def hGetC (wh : Hdrs) (ck : String) : String :=
  ((wh.find? (·.1 == ck)).map (·.2)).getD ""

/-- Replace-or-append by an already-canonical key (mirroring
`textproto.MIMEHeader.Set`, which overwrites the whole value list). -/
def hSetC (wh : Hdrs) (ck v : String) : Hdrs :=
  match wh with
  | [] => [(ck, v)]
  | (k', v') :: rest =>
    if k' == ck then (ck, v) :: rest else (k', v') :: hSetC rest ck v

/-- Go `http.Header.Get`. -/
def hGet (wh : Hdrs) (k : String) : String :=
  hGetC wh (canonicalMIMEHeaderKey k)

/-- Go `http.Header.Set`. -/
def hSet (wh : Hdrs) (k v : String) : Hdrs :=
  hSetC wh (canonicalMIMEHeaderKey k) v

/-! ## Response writers -/

/-- The `http.ResponseWriter` interface (plus the `Header()` map accessors) as
a record of operations over a writer state `σ`. -/
structure Writer (σ : Type) where
  writeHeader : σ → Int → σ
  write : σ → Chunk → σ
  setHeader : σ → String → String → σ
  getHeader : σ → String → String

/-- The client-visible response: header map as at commit time, the first
committed status (`none` while uncommitted), and the body chunks sent. -/
structure Resp where
  headers : Hdrs := []
  status : Option Int := none
  body : List Chunk := []
deriving DecidableEq, Repr

/-- The bottom-of-stack writer: `net/http`'s own response machinery.  A second
`WriteHeader` on a committed response is ignored; a body write on an
uncommitted response first commits status 200. -/
def respW : Writer Resp where
  writeHeader r s := if r.status.isSome then r else { r with status := some s }
  write r c :=
    match r.status with
    | none => { r with status := some 200, body := r.body ++ [c] }
    | some _ => { r with body := r.body ++ [c] }
  setHeader r k v := { r with headers := hSet r.headers k v }
  getHeader r k := hGet r.headers k

/-- The status the client ultimately observes on a completed response: the
committed status, or 200 when the response ends without an explicit commit. -/
def clientStatus (r : Resp) : Int :=
  r.status.getD 200

/-- Go `http.StatusText` (the standard IANA table; unknown codes map to the
empty string). -/
def statusText : Int → String
  | 100 => "Continue"
  | 101 => "Switching Protocols"
  | 200 => "OK"
  | 201 => "Created"
  | 202 => "Accepted"
  | 203 => "Non-Authoritative Information"
  | 204 => "No Content"
  | 205 => "Reset Content"
  | 206 => "Partial Content"
  | 300 => "Multiple Choices"
  | 301 => "Moved Permanently"
  | 302 => "Found"
  | 303 => "See Other"
  | 304 => "Not Modified"
  | 305 => "Use Proxy"
  | 307 => "Temporary Redirect"
  | 400 => "Bad Request"
  | 401 => "Unauthorized"
  | 402 => "Payment Required"
  | 403 => "Forbidden"
  | 404 => "Not Found"
  | 405 => "Method Not Allowed"
  | 406 => "Not Acceptable"
  | 407 => "Proxy Authentication Required"
  | 408 => "Request Timeout"
  | 409 => "Conflict"
  | 410 => "Gone"
  | 411 => "Length Required"
  | 412 => "Precondition Failed"
  | 413 => "Request Entity Too Large"
  | 414 => "Request URI Too Long"
  | 415 => "Unsupported Media Type"
  | 416 => "Requested Range Not Satisfiable"
  | 417 => "Expectation Failed"
  | 418 => "I am a teapot"
  | 500 => "Internal Server Error"
  | 501 => "Not Implemented"
  | 502 => "Bad Gateway"
  | 503 => "Service Unavailable"
  | 504 => "Gateway Timeout"
  | 505 => "HTTP Version Not Supported"
  | _ => ""

/-- Go `http.Error(w, msg, code)` (of this repository's era): sets
`Content-Type: text/plain; charset=utf-8`, commits `code`, then writes
`msg` followed by a newline. -/
def httpError (W : Writer σ) (st : σ) (msg : String) (code : Int) : σ :=
  W.write (W.writeHeader
    (W.setHeader st "Content-Type" "text/plain; charset=utf-8") code)
    (Chunk.bytes (msg ++ "\n"))

/-! ## The error registry and `StaticServeMux` interception (`handlers.go`) -/

/-- `StaticServeMux.errors`: the map from status code to registered substitute
handler, each handler given by its per-request writer script. -/
abbrev ErrorRegistry := List (Int × List HAction)

/-- Registry lookup (`s.errors[status]`). -/
def lookupErr (R : ErrorRegistry) (s : Int) : Option (List HAction) :=
  (R.find? (·.1 == s)).map (·.2)

/-- Execution of a substitute handler through `statusResponseWriter{w, pin}`:
its `WriteHeader(x)` calls forward `pin` when `pin > 0`, are dropped when
`pin < 0`, and forward `x` when `pin = 0`; `Write` and `Header()` pass
through.  Returns the writer state together with an escaping panic payload,
if the handler faulted. -/
def runPinned (W : Writer σ) (pin : Int) : σ → List HAction → σ × Option Nat
  | st, [] => (st, none)
  | st, .writeHeader s :: rest =>
    runPinned W pin
      (if pin < 0 then st
       else if 0 < pin then W.writeHeader st pin
       else W.writeHeader st s) rest
  | st, .write c :: rest => runPinned W pin (W.write st c) rest
  | st, .setHeader k v :: rest => runPinned W pin (W.setHeader st k v) rest
  | st, .fault e :: _ => (st, some e)

/-- `StaticServeMux.intercept(status, w, req)`: if a handler is registered for
`status` it runs pinned to `status` and the result is `true` (intercepted);
otherwise statuses below 400 yield `false` (proceed) and statuses of 400 and
above fall back to `http.Error` with the generic status text, yielding
`true`.  The third component is a fault escaping from the substitute
handler. -/
def intercept (W : Writer σ) (R : ErrorRegistry) (status : Int) (st : σ) :
    σ × Bool × Option Nat :=
  match lookupErr R status with
  | some H =>
    let (st', f) := runPinned W status st H
    (st', true, f)
  | none =>
    if status < 400 then (st, false, none)
    else (httpError W st (statusText status) status, true, none)

/-- Outcome of running a handler script over an
`InterceptResponseWriter`. -/
inductive RunOut where
  | normal
  | intercepted
  | fault (e : Nat)
deriving DecidableEq, Repr

/-- Execution of a handler script over `InterceptResponseWriter`: each
`WriteHeader(s)` first consults `intercept`; a `true` result raises the
short-circuit token (`panic(h)`), a fault inside the substitute handler
escapes, and otherwise the commit passes through and execution continues. -/
def runScript (W : Writer σ) (R : ErrorRegistry) :
    σ → List HAction → σ × RunOut
  | st, [] => (st, .normal)
  | st, .writeHeader s :: rest =>
    let (st', b, f) := intercept W R s st
    match f with
    | some e => (st', .fault e)
    | none =>
      if b then (st', .intercepted)
      else runScript W R (W.writeHeader st' s) rest
  | st, .write c :: rest => runScript W R (W.write st c) rest
  | st, .setHeader k v :: rest => runScript W R (W.setHeader st k v) rest
  | st, .fault e :: _ => (st, .fault e)

/-- `StaticServeMux.interceptHandler`: runs the handler, recovers exactly the
short-circuit token (returning normally), and re-raises any other panic
unchanged (`some e` = escaping fault). -/
def interceptHandler (W : Writer σ) (R : ErrorRegistry) (st : σ)
    (acts : List HAction) : σ × Option Nat :=
  match runScript W R st acts with
  | (st', .fault e) => (st', some e)
  | (st', _) => (st', none)

/-- A plain execution of a script over a writer with no interception (stops
at a fault, returning its payload).  This is how a handler interacts with
any non-intercepting writer, e.g. the raw writer handed to a substitute
handler by `goserve.go`'s `ErrorHandlingResponseWriter`. -/
def runPlain (W : Writer σ) : σ → List HAction → σ × Option Nat
  | st, [] => (st, none)
  | st, .writeHeader s :: rest => runPlain W (W.writeHeader st s) rest
  | st, .write c :: rest => runPlain W (W.write st c) rest
  | st, .setHeader k v :: rest => runPlain W (W.setHeader st k v) rest
  | st, .fault e :: _ => (st, some e)

/-! ## `goserve.go`'s older interception wrapper (`ErrorHandler`) -/

/-- Execution of a handler script over `ErrorHandlingResponseWriter`
(`goserve.go`): on `WriteHeader(s)`, if a handler is registered for `s` (any
`s`, with no `< 400` guard and no generic fallback) it runs directly on the
underlying writer (not pinned) and the token is raised; otherwise the commit
passes through. -/
def runScriptEH (W : Writer σ) (R : ErrorRegistry) :
    σ → List HAction → σ × RunOut
  | st, [] => (st, .normal)
  | st, .writeHeader s :: rest =>
    match lookupErr R s with
    | some H =>
      match runPlain W st H with
      | (st', some e) => (st', .fault e)
      | (st', none) => (st', .intercepted)
    | none => runScriptEH W R (W.writeHeader st s) rest
  | st, .write c :: rest => runScriptEH W R (W.write st c) rest
  | st, .setHeader k v :: rest => runScriptEH W R (W.setHeader st k v) rest
  | st, .fault e :: _ => (st, .fault e)

/-- `goserve.go`'s `ErrorHandler` unwind logic: recovers the token
(`p == ehrw`), additionally recovers the payload `1` and turns it into
`http.Error(w, "way", 404)`, and re-raises anything else. -/
def errorHandler (W : Writer σ) (R : ErrorRegistry) (st : σ)
    (acts : List HAction) : σ × Option Nat :=
  match runScriptEH W R st acts with
  | (st', .fault 1) => (httpError W st' "way" 404, none)
  | (st', .fault e) => (st', some e)
  | (st', _) => (st', none)

/-! ## The file server and listing suppression (`handlers.go`, `config.go`)

`net/http`'s `FileServer.serveFile` is embedded for canonical request paths
(the trailing-slash redirect logic for directories requested without a
trailing slash, content-type negotiation for successfully served files, and
ETag/range handling are not modelled; no claim concerns them). -/

/-- A file-system entry as `http.Dir.Open` exposes it. -/
inductive Entry where
  | file (body : String)
  | dir
deriving DecidableEq, Repr

/-- The file system: association from cleaned path to entry; `none` means
`Open` fails (missing file). -/
abbrev Fs := List (String × Entry)

/-- `http.Dir.Open`: `none` models a `nil` file with a non-nil error. -/
def fsOpen (fs : Fs) (name : String) : Option Entry :=
  (fs.find? (·.1 == name)).map (·.2)

/-- The index-file name `serveFile` probes for a directory:
`strings.TrimSuffix(name, "/") + "/index.html"` (the trim expressed over
the character list so that it evaluates by reduction). -/
def indexName (name : String) : String :=
  (if name.toList.getLast? = some '/' then ⟨name.toList.dropLast⟩ else name)
    ++ "/index.html"

/-- `net/http.serveFile` over a plain `http.Dir`: a failed open yields the
generic 404 error (`toHTTPError`/`http.Error`); a file is served with
status 200; a directory is served via its index file when that opens as a
file, and otherwise falls back to `dirList`'s generated listing (written
with an implicit 200, after setting the HTML content type). -/
def fileServerPlain (fs : Fs) (name : String) : List HAction :=
  match fsOpen fs name with
  | none =>
    [.setHeader "Content-Type" "text/plain; charset=utf-8",
     .writeHeader 404, .write (.bytes "404 page not found\n")]
  | some (.file b) => [.writeHeader 200, .write (.bytes b)]
  | some .dir =>
    match fsOpen fs (indexName name) with
    | some (.file b) => [.writeHeader 200, .write (.bytes b)]
    | some .dir =>
      [.setHeader "Content-Type" "text/html; charset=utf-8",
       .write (.listing (indexName name))]
    | none =>
      [.setHeader "Content-Type" "text/html; charset=utf-8",
       .write (.listing name)]

/-- Result of `serveFile` over a `PreventListingDir`: either the script the
server would execute, or the panic `panic(dir)` raised by
`PreventListingDir.Open` (which fires on *every* failed open, before any
write). -/
inductive ServeOut where
  | script (acts : List HAction)
  | panicDir
deriving DecidableEq, Repr

/-- `net/http.serveFile` over `PreventListingDir`: any open returning a nil
file panics with the directory token.  A missing path panics; a directory
whose index probe fails panics; successful opens are served as in the plain
case (including the corner where the index name opens as a directory, in
which case the listing of that index directory is still generated). -/
def fileServerPrevent (fs : Fs) (name : String) : ServeOut :=
  match fsOpen fs name with
  | none => .panicDir
  | some (.file b) => .script [.writeHeader 200, .write (.bytes b)]
  | some .dir =>
    match fsOpen fs (indexName name) with
    | none => .panicDir
    | some (.file b) => .script [.writeHeader 200, .write (.bytes b)]
    | some .dir =>
      .script
        [.setHeader "Content-Type" "text/html; charset=utf-8",
         .write (.listing (indexName name))]

/-- `SuppressListingHandler`: runs the file server over a
`PreventListingDir` and recovers exactly the directory token, translating it
into `http.Error(w, StatusText(403), 403)`; as in the source, that error is
written through the handler's own response writer, so the resulting script
is what executes against the (possibly intercepting) writer above. -/
def suppressListingHandler (fs : Fs) (name : String) : List HAction :=
  match fileServerPrevent fs name with
  | .script acts => acts
  | .panicDir =>
    [.setHeader "Content-Type" "text/plain; charset=utf-8",
     .writeHeader 403, .write (.bytes (statusText 403 ++ "\n"))]

/-! ## Access logging (`LogHandler`, the current revision) -/

/-- The state threaded through a `LoggingResponseWriter`: the wrapped
response plus the `*status` (initialised to 200) and `*size` cells. -/
structure LogState where
  resp : Resp
  status : Int
  size : Int
deriving DecidableEq, Repr

/-- `LoggingResponseWriter`: forwards every operation and records the last
status passed to `WriteHeader` and the running byte count of `Write`. -/
def logWriter : Writer LogState where
  writeHeader st s := { st with resp := respW.writeHeader st.resp s, status := s }
  write st c :=
    { st with resp := respW.write st.resp c, size := st.size + (c.len : Int) }
  setHeader st k v := { st with resp := respW.setHeader st.resp k v }
  getHeader st k := respW.getHeader st.resp k

/-- Go `strings.Split` restricted to a single-character separator. -/
def splitGo (sep : Char) : List Char → List (List Char)
  | [] => [[]]
  | c :: rest =>
    if c = sep then [] :: splitGo sep rest
    else
      match splitGo sep rest with
      | [] => [[c]]
      | g :: gs => (c :: g) :: gs

/-- The remote-address (resp. local-address) field of the log line:
`strings.Split(addr, ":")[0]`. -/
def addrField (addr : String) : String :=
  ⟨(splitGo ':' addr.toList).headD []⟩

/-- One emitted access-log record (the wall-clock timestamp is not
modelled).  `toStderr` records the sink choice: errors (4xx/5xx) go to
stderr, everything else to stdout. -/
structure LogRec where
  remoteAddr : String
  localAddr : String
  requestLine : String
  status : Int
  size : Int
  toStderr : Bool
deriving DecidableEq, Repr

/-- `LoggingResponseWriter.log`: assembles the record from the request and
the recorded status/size. -/
def logRecOf (req : Request) (st : LogState) : LogRec where
  remoteAddr := addrField req.remoteAddr
  localAddr := addrField req.host
  requestLine := req.method ++ " " ++ req.requestURI
  status := st.status
  size := st.size
  toStderr := 400 ≤ st.status && st.status < 600

/-- `LogHandler` around an arbitrary inner run: builds a fresh
`LoggingResponseWriter` (status 200, size 0), runs the inner handler, and —
only when it returns without a panic — emits exactly one record.  A panic
escaping the inner handler skips `rw.log` (there is no defer around it). -/
def logHandlerRun (inner : LogState → LogState × Option Nat) (req : Request)
    (r0 : Resp) : Resp × List LogRec × Option Nat :=
  let st0 : LogState := ⟨r0, 200, 0⟩
  match inner st0 with
  | (st, some e) => (st.resp, [], some e)
  | (st, none) => (st.resp, [logRecOf req st], none)

/-- `LogHandler` wrapping a plain handler script. -/
def logHandler (req : Request) (r0 : Resp) (acts : List HAction) :
    Resp × List LogRec × Option Nat :=
  logHandlerRun (fun st => runPlain logWriter st acts) req r0

/-! ## Header defaults (`CustomHeadersHandler`) -/

/-- The loop of `CustomHeadersHandler`: for each configured pair, set it
only when `Get` currently yields the empty string.  The configured `Headers`
is a Go map, so the loop is taken over an arbitrary enumeration order of
the pairs. -/
def applyDefaults : List (String × String) → Hdrs → Hdrs
  | [], wh => wh
  | kv :: rest, wh =>
    applyDefaults rest (if hGet wh kv.1 == "" then hSet wh kv.1 kv.2 else wh)

/-- `CustomHeadersHandler`: installs the defaults into the response headers,
then invokes the wrapped handler. -/
def customHeadersHandler (defaults : List (String × String))
    (h : Request → List HAction) (req : Request) (st : Resp) :
    Resp × Option Nat :=
  runPlain respW { st with headers := applyDefaults defaults st.headers } (h req)

/-! ## Gzip (`GzipHandler`) -/

/-- Stand-in for `http.DetectContentType` (the sniffing algorithm itself is
not modelled; no claim inspects the sniffed value). -/
def detectContentType (_c : Chunk) : String :=
  "application/octet-stream"

/-- Execution of a script over a `GzipResponseWriter`: the first body write
sniffs a content type when none is set, and every body write is passed to
the gzip stream (represented by wrapping the chunk in `Chunk.gzipped`);
`WriteHeader` and `Header()` pass through.  The boolean is
`gotContentType`. -/
def runGz (W : Writer σ) : σ → Bool → List HAction → σ × Bool × Option Nat
  | st, got, [] => (st, got, none)
  | st, got, .write c :: rest =>
    let st' :=
      if !got && (W.getHeader st "Content-Type" == "") then
        W.setHeader st "Content-Type" (detectContentType c)
      else st
    runGz W (W.write st' (.gzipped c)) true rest
  | st, got, .writeHeader s :: rest => runGz W (W.writeHeader st s) got rest
  | st, got, .setHeader k v :: rest => runGz W (W.setHeader st k v) got rest
  | st, got, .fault e :: _ => (st, got, some e)

/-- Go `strings.Contains(s, sub)`. -/
def goContains (s sub : String) : Bool :=
  decide (sub.toList <:+: s.toList)

/-- `GzipHandler`: when the request's `Accept-Encoding` does not contain the
substring `gzip`, the wrapped handler is served with the original writer,
untouched; otherwise `Content-Encoding: gzip` is set and the handler runs
through a `GzipResponseWriter` (the gzip trailer flushed by `gz.Close` is
not spelled out). -/
def gzipHandler (h : Request → List HAction) (req : Request) (st : Resp) :
    Resp × Option Nat :=
  if !(goContains req.acceptEncoding "gzip") then
    runPlain respW st (h req)
  else
    let st' := respW.setHeader st "Content-Encoding" "gzip"
    let (st'', _, f) := runGz respW st' false (h req)
    (st'', f)

/-! ## Supporting lemmas -/

lemma noFault_cons {a : HAction} {rest : List HAction}
    (h : noFault (a :: rest) = true) : noFault rest = true := by
  cases a <;> simp_all [noFault]

/-- Running a substitute handler pinned over an already-committed response:
the status never changes, the handler's chunks are appended, and no fault
escapes. -/
lemma runPinned_committed (pin q : Int) :
    ∀ (H : List HAction) (st : Resp), st.status = some q → noFault H = true →
      (runPinned respW pin st H).1.status = some q ∧
      (runPinned respW pin st H).1.body = st.body ++ bodyOf H ∧
      (runPinned respW pin st H).2 = none := by
  intro H
  induction H with
  | nil => intro st hq _; simp [runPinned, bodyOf, hq]
  | cons a rest ih =>
    intro st hq hnf
    cases a with
    | writeHeader s =>
      have hw : ∀ x : Int, respW.writeHeader st x = st := by
        intro x; simp [respW, hq]
      have h := ih st hq (noFault_cons hnf)
      simpa [runPinned, hw, bodyOf] using h
    | write c =>
      have h := ih { st with status := some q, body := st.body ++ [c] }
        (by simp) (noFault_cons hnf)
      simpa [runPinned, respW, hq, bodyOf, List.append_assoc] using h
    | setHeader k v =>
      have h := ih { st with headers := hSet st.headers k v } (by simpa)
        (noFault_cons hnf)
      simpa [runPinned, respW, bodyOf] using h
    | fault e => simp [noFault] at hnf

/-- Running a substitute handler pinned to a positive status over an
uncommitted response, when the handler commits a header before its first
body write: the committed status is exactly the pin, the handler's chunks
are appended, and no fault escapes. -/
lemma runPinned_pins (pin : Int) (hpin : 0 < pin) :
    ∀ (H : List HAction) (st : Resp), st.status = none →
      commitsFirst H = true → noFault H = true →
      (runPinned respW pin st H).1.status = some pin ∧
      (runPinned respW pin st H).1.body = st.body ++ bodyOf H ∧
      (runPinned respW pin st H).2 = none := by
  intro H
  induction H with
  | nil => intro st _ hcf _; simp [commitsFirst] at hcf
  | cons a rest ih =>
    intro st hst hcf hnf
    cases a with
    | writeHeader s =>
      have hnlt : ¬ pin < 0 := by omega
      have hw : respW.writeHeader st pin = { st with status := some pin } := by
        simp [respW, hst]
      have h := runPinned_committed pin pin rest { st with status := some pin }
        (by simp) (noFault_cons hnf)
      simpa [runPinned, hnlt, hpin, hw, bodyOf] using h
    | write c => simp [commitsFirst] at hcf
    | setHeader k v =>
      have h := ih { st with headers := hSet st.headers k v } (by simpa)
        (by simpa [commitsFirst] using hcf) (noFault_cons hnf)
      simpa [runPinned, respW, bodyOf] using h
    | fault e => simp [commitsFirst] at hcf

/-! ## Claim C1 -/

/-- **C1, counterexample.** The claim as stated is false: with a handler
registered for 404 that writes its body without ever calling `WriteHeader`,
an intercepted 404 commit delivers the implicit status 200 to the client,
not 404 — the pinning only constrains `WriteHeader` calls the substitute
handler actually makes. -/
theorem c1_counterexample :
    lookupErr [((404 : Int), [HAction.write (Chunk.bytes "oops")])] 404 =
      some [HAction.write (Chunk.bytes "oops")] ∧
    (intercept respW [((404 : Int), [HAction.write (Chunk.bytes "oops")])] 404
      { headers := [], status := none, body := [] }).1.status = some 200 ∧
    some (200 : Int) ≠ some (404 : Int) := by
  decide

/-- **C1, amended.** For every status `s ≥ 400` with a registered handler
`H`, interception of an uncommitted response yields `Intercepted`, delivers
exactly `H`'s body chunks, and — provided `H` performs a header write before
its first body write and does not fault — the status delivered to the
client is exactly the intercepted `s`: `H`'s own `WriteHeader` calls are
pinned to `s` and cannot change it. -/
theorem c1_intercept_pins_status (R : ErrorRegistry) (s : Int)
    (H : List HAction) (r : Resp) (hreg : lookupErr R s = some H)
    (hs : 400 ≤ s) (hr : r.status = none) (hcf : commitsFirst H = true)
    (hnf : noFault H = true) :
    (intercept respW R s r).2.1 = true ∧
    (intercept respW R s r).2.2 = none ∧
    (intercept respW R s r).1.status = some s ∧
    (intercept respW R s r).1.body = r.body ++ bodyOf H := by
  have hpin : (0 : Int) < s := by omega
  have h := runPinned_pins s hpin H r hr hcf hnf
  rcases hrp : runPinned respW s r H with ⟨st', f⟩
  rw [hrp] at h
  simp [intercept, hreg, hrp, h.2.2]
  exact ⟨h.1, h.2.1⟩

/-- Witness for `c1_intercept_pins_status` at a concrete registry, status,
handler, and fresh response. -/
theorem c1_intercept_pins_status_witness :
    (lookupErr [((404 : Int), [HAction.writeHeader 200,
        HAction.write (Chunk.bytes "nf")])] 404 =
      some [HAction.writeHeader 200, HAction.write (Chunk.bytes "nf")]) ∧
    ((400 : Int) ≤ 404) ∧
    (({ } : Resp).status = none) ∧
    (commitsFirst [HAction.writeHeader 200,
        HAction.write (Chunk.bytes "nf")] = true) ∧
    (noFault [HAction.writeHeader 200,
        HAction.write (Chunk.bytes "nf")] = true) ∧
    ((intercept respW [((404 : Int), [HAction.writeHeader 200,
          HAction.write (Chunk.bytes "nf")])] 404 { }).2.1 = true ∧
      (intercept respW [((404 : Int), [HAction.writeHeader 200,
          HAction.write (Chunk.bytes "nf")])] 404 { }).2.2 = none ∧
      (intercept respW [((404 : Int), [HAction.writeHeader 200,
          HAction.write (Chunk.bytes "nf")])] 404 { }).1.status = some 404 ∧
      (intercept respW [((404 : Int), [HAction.writeHeader 200,
          HAction.write (Chunk.bytes "nf")])] 404 { }).1.body =
        ({ } : Resp).body ++ bodyOf [HAction.writeHeader 200,
          HAction.write (Chunk.bytes "nf")]) :=
  ⟨by decide, by decide, by decide, by decide, by decide,
    c1_intercept_pins_status _ 404 _ { } (by decide) (by decide) (by decide)
      (by decide) (by decide)⟩

/-! ## Claim C2 -/

/-- **C2, counterexample.** The claim as stated is false: the registry
lookup in `intercept` happens before the `status < 400` guard, so a handler
registered for a sub-400 status (here 301) does trigger interception — the
outcome is not `Proceed` for every registry. -/
theorem c2_counterexample :
    ((301 : Int) < 400) ∧
    (intercept respW [((301 : Int), [])] 301
      { headers := [], status := none, body := [] }).2.1 = true := by
  decide

/-- **C2, amended.** For every status `s < 400` *for which no handler is
registered*, interception never triggers: `intercept` returns `Proceed`
with the state untouched and no fault, and the original status write
reaches the underlying response unmodified before execution continues. -/
theorem c2_below_400_proceeds {σ : Type} (W : Writer σ) (R : ErrorRegistry)
    (s : Int) (st : σ) (hs : s < 400) (hreg : lookupErr R s = none) :
    intercept W R s st = (st, false, none) ∧
    ∀ rest, runScript W R st (HAction.writeHeader s :: rest) =
      runScript W R (W.writeHeader st s) rest := by
  constructor
  · simp [intercept, hreg, hs]
  · intro rest
    simp [runScript, intercept, hreg, hs]

/-- Witness for `c2_below_400_proceeds` at a registry that does hold a 404
handler, a 200 commit, and a fresh response. -/
theorem c2_below_400_proceeds_witness :
    ((200 : Int) < 400) ∧
    (lookupErr [((404 : Int), [HAction.write (Chunk.bytes "nf")])] 200 =
      none) ∧
    (intercept respW [((404 : Int), [HAction.write (Chunk.bytes "nf")])] 200
        { } = ({ }, false, none) ∧
      ∀ rest, runScript respW
          [((404 : Int), [HAction.write (Chunk.bytes "nf")])] { }
          (HAction.writeHeader 200 :: rest) =
        runScript respW [((404 : Int), [HAction.write (Chunk.bytes "nf")])]
          (respW.writeHeader { } 200) rest) :=
  ⟨by decide, by decide,
    c2_below_400_proceeds respW _ 200 { } (by decide) (by decide)⟩

/-! ## Claim C6 -/

/-- **C6, counterexample.** The claim as stated is false: with no handler
registered, a 404 commit does produce the generic text body, but
`intercept` returns `true` — the outcome is `Intercepted` (the wrapper then
panics with the short-circuit token), not `Proceed`. -/
theorem c6_counterexample :
    lookupErr ([] : ErrorRegistry) 404 = none ∧
    (intercept respW [] 404
      { headers := [], status := none, body := [] }).2.1 = true := by
  decide

/-- **C6, amended.** For every status `s ≥ 400` with no registered handler
and an uncommitted response, `intercept` falls back to the generic text
error body naming the status (Go `http.Error` with `http.StatusText`),
commits exactly `s`, and the outcome is `Intercepted`: the remainder of the
handler chain is short-circuited, not proceeded with. -/
theorem c6_generic_fallback_intercepts (R : ErrorRegistry) (s : Int)
    (r : Resp) (hs : 400 ≤ s) (hreg : lookupErr R s = none)
    (hr : r.status = none) :
    (intercept respW R s r).2.1 = true ∧
    (intercept respW R s r).2.2 = none ∧
    (intercept respW R s r).1.status = some s ∧
    (intercept respW R s r).1.body =
      r.body ++ [Chunk.bytes (statusText s ++ "\n")] ∧
    ∀ rest, runScript respW R r (HAction.writeHeader s :: rest) =
      ((intercept respW R s r).1, RunOut.intercepted) := by
  have hnlt : ¬ s < 400 := by omega
  refine ⟨?_, ?_, ?_, ?_, ?_⟩ <;>
    simp [intercept, hreg, hnlt, httpError, respW, hr, runScript]

/-- Witness for `c6_generic_fallback_intercepts` at status 404 with an
empty registry and a fresh response. -/
theorem c6_generic_fallback_intercepts_witness :
    ((400 : Int) ≤ 404) ∧
    (lookupErr ([] : ErrorRegistry) 404 = none) ∧
    (({ } : Resp).status = none) ∧
    ((intercept respW [] 404 { }).2.1 = true ∧
      (intercept respW [] 404 { }).2.2 = none ∧
      (intercept respW [] 404 { }).1.status = some 404 ∧
      (intercept respW [] 404 { }).1.body =
        ({ } : Resp).body ++ [Chunk.bytes (statusText 404 ++ "\n")] ∧
      ∀ rest, runScript respW [] { } (HAction.writeHeader 404 :: rest) =
        ((intercept respW [] 404 { }).1, RunOut.intercepted)) :=
  ⟨by decide, by decide, by decide,
    c6_generic_fallback_intercepts [] 404 { } (by decide) (by decide)
      (by decide)⟩

/-! ## Claims C3 and C5 -/

/-- Running the 403 script that `SuppressListingHandler`'s recover branch
emits (`http.Error(w, StatusText(403), 403)`), over an intercepting writer
whose registry holds no 403 handler: the response commits exactly 403 with
the generic Forbidden body, and the run short-circuits. -/
lemma runScript_suppress403 (R : ErrorRegistry) (r : Resp)
    (hlk : lookupErr R 403 = none) (hr : r.status = none) :
    (runScript respW R r
      [HAction.setHeader "Content-Type" "text/plain; charset=utf-8",
       HAction.writeHeader 403,
       HAction.write (Chunk.bytes (statusText 403 ++ "\n"))]).1.status =
        some 403 ∧
    (runScript respW R r
      [HAction.setHeader "Content-Type" "text/plain; charset=utf-8",
       HAction.writeHeader 403,
       HAction.write (Chunk.bytes (statusText 403 ++ "\n"))]).1.body =
      r.body ++ [Chunk.bytes (statusText 403 ++ "\n")] ∧
    (runScript respW R r
      [HAction.setHeader "Content-Type" "text/plain; charset=utf-8",
       HAction.writeHeader 403,
       HAction.write (Chunk.bytes (statusText 403 ++ "\n"))]).2 =
      RunOut.intercepted := by
  have hnlt : ¬ (403 : Int) < 400 := by decide
  refine ⟨?_, ?_, ?_⟩ <;>
    simp [runScript, intercept, hlk, hnlt, httpError, respW, hr]

/-- **C3, counterexample.** The claim as stated is false: under
`SuppressListingHandler`, a request for a plain missing file is forced to
403 even when a 404 handler is registered — `PreventListingDir.Open` panics
on *every* failed open, so the missing file never reaches the ordinary 404
path and the registered 404 handler is bypassed. -/
theorem c3_counterexample :
    fsOpen [] "/missing" = none ∧
    (interceptHandler respW
      [((404 : Int), [HAction.writeHeader 0,
        HAction.write (Chunk.bytes "custom 404")])]
      { headers := [], status := none, body := [] }
      (suppressListingHandler [] "/missing")).1.status = some 403 ∧
    some (403 : Int) ≠ some (404 : Int) := by
  decide

/-- **C3, amended.** The listing-suppressing file source does *not*
distinguish a missing file from a present directory lacking an index
document: for every request whose path fails to open — a plain missing file
included — the handler is forced to 403, bypassing any registered 404
handler (only the 403 registration, absent here, could alter the body). -/
theorem c3_missing_file_forced_403 (fs : Fs) (name : String)
    (R : ErrorRegistry) (r : Resp) (hfs : fsOpen fs name = none)
    (hlk : lookupErr R 403 = none) (hr : r.status = none) :
    (interceptHandler respW R r (suppressListingHandler fs name)).2 = none ∧
    (interceptHandler respW R r
      (suppressListingHandler fs name)).1.status = some 403 ∧
    (interceptHandler respW R r (suppressListingHandler fs name)).1.body =
      r.body ++ [Chunk.bytes (statusText 403 ++ "\n")] := by
  have hscript : suppressListingHandler fs name =
      [HAction.setHeader "Content-Type" "text/plain; charset=utf-8",
       HAction.writeHeader 403,
       HAction.write (Chunk.bytes (statusText 403 ++ "\n"))] := by
    simp [suppressListingHandler, fileServerPrevent, hfs]
  rw [hscript]
  have h := runScript_suppress403 R r hlk hr
  rcases hrs : runScript respW R r
      [HAction.setHeader "Content-Type" "text/plain; charset=utf-8",
       HAction.writeHeader 403,
       HAction.write (Chunk.bytes (statusText 403 ++ "\n"))] with ⟨st, out⟩
  rw [hrs] at h
  have hout : out = RunOut.intercepted := h.2.2
  subst hout
  have h1 : st.status = some 403 := h.1
  have h2 : st.body = r.body ++ [Chunk.bytes (statusText 403 ++ "\n")] := h.2.1
  simp [interceptHandler, hrs, h1, h2]

/-- Witness for `c3_missing_file_forced_403` on an empty file system with a
404 handler registered. -/
theorem c3_missing_file_forced_403_witness :
    (fsOpen [] "/missing" = none) ∧
    (lookupErr [((404 : Int), [HAction.writeHeader 0,
      HAction.write (Chunk.bytes "custom 404")])] 403 = none) ∧
    (({ } : Resp).status = none) ∧
    ((interceptHandler respW
        [((404 : Int), [HAction.writeHeader 0,
          HAction.write (Chunk.bytes "custom 404")])] { }
        (suppressListingHandler [] "/missing")).2 = none ∧
      (interceptHandler respW
        [((404 : Int), [HAction.writeHeader 0,
          HAction.write (Chunk.bytes "custom 404")])] { }
        (suppressListingHandler [] "/missing")).1.status = some 403 ∧
      (interceptHandler respW
        [((404 : Int), [HAction.writeHeader 0,
          HAction.write (Chunk.bytes "custom 404")])] { }
        (suppressListingHandler [] "/missing")).1.body =
        ({ } : Resp).body ++ [Chunk.bytes (statusText 403 ++ "\n")]) :=
  ⟨by decide, by decide, by decide,
    c3_missing_file_forced_403 [] "/missing" _ { } (by decide) (by decide)
      (by decide)⟩

/-- **C5, confirmed.** For every request resolving to a directory with no
entry at its index-file name, under listing suppression, the fresh response
the client receives commits status 403 with the generic Forbidden body and
never contains a generated directory listing — for an arbitrary registry
with no 403 handler, in particular regardless of whether a 404 handler is
registered. -/
theorem c5_dir_without_index_403 (fs : Fs) (name : String)
    (R : ErrorRegistry) (r : Resp) (hdir : fsOpen fs name = some Entry.dir)
    (hidx : fsOpen fs (indexName name) = none)
    (hlk : lookupErr R 403 = none) (hr : r.status = none)
    (hrb : r.body = []) :
    (interceptHandler respW R r (suppressListingHandler fs name)).2 = none ∧
    (interceptHandler respW R r
      (suppressListingHandler fs name)).1.status = some 403 ∧
    (interceptHandler respW R r (suppressListingHandler fs name)).1.body =
      [Chunk.bytes (statusText 403 ++ "\n")] ∧
    ∀ c ∈ (interceptHandler respW R r
      (suppressListingHandler fs name)).1.body, c.isListing = false := by
  have hscript : suppressListingHandler fs name =
      [HAction.setHeader "Content-Type" "text/plain; charset=utf-8",
       HAction.writeHeader 403,
       HAction.write (Chunk.bytes (statusText 403 ++ "\n"))] := by
    simp [suppressListingHandler, fileServerPrevent, hdir, hidx]
  rw [hscript]
  have h := runScript_suppress403 R r hlk hr
  rcases hrs : runScript respW R r
      [HAction.setHeader "Content-Type" "text/plain; charset=utf-8",
       HAction.writeHeader 403,
       HAction.write (Chunk.bytes (statusText 403 ++ "\n"))] with ⟨st, out⟩
  rw [hrs] at h
  have hout : out = RunOut.intercepted := h.2.2
  subst hout
  have h1 : st.status = some 403 := h.1
  have hbody : st.body = [Chunk.bytes (statusText 403 ++ "\n")] := by
    have h2 : st.body = r.body ++ [Chunk.bytes (statusText 403 ++ "\n")] :=
      h.2.1
    simpa [hrb] using h2
  refine ⟨by simp [interceptHandler, hrs], by simp [interceptHandler, hrs, h1],
    by simp [interceptHandler, hrs, hbody], ?_⟩
  intro c hc
  simp [interceptHandler, hrs, hbody] at hc
  simp [hc, Chunk.isListing]

/-- Witness for `c5_dir_without_index_403`: `/docs/` maps to a directory
with no index entry, and a 404 handler *is* registered. -/
theorem c5_dir_without_index_403_witness :
    (fsOpen [("/docs/", Entry.dir)] "/docs/" = some Entry.dir) ∧
    (fsOpen [("/docs/", Entry.dir)] (indexName "/docs/") = none) ∧
    (lookupErr [((404 : Int), [HAction.writeHeader 0,
      HAction.write (Chunk.bytes "custom 404")])] 403 = none) ∧
    (({ } : Resp).status = none) ∧ (({ } : Resp).body = []) ∧
    ((interceptHandler respW
        [((404 : Int), [HAction.writeHeader 0,
          HAction.write (Chunk.bytes "custom 404")])] { }
        (suppressListingHandler [("/docs/", Entry.dir)] "/docs/")).2 =
        none ∧
      (interceptHandler respW
        [((404 : Int), [HAction.writeHeader 0,
          HAction.write (Chunk.bytes "custom 404")])] { }
        (suppressListingHandler [("/docs/", Entry.dir)] "/docs/")).1.status =
        some 403 ∧
      (interceptHandler respW
        [((404 : Int), [HAction.writeHeader 0,
          HAction.write (Chunk.bytes "custom 404")])] { }
        (suppressListingHandler [("/docs/", Entry.dir)] "/docs/")).1.body =
        [Chunk.bytes (statusText 403 ++ "\n")] ∧
      ∀ c ∈ (interceptHandler respW
        [((404 : Int), [HAction.writeHeader 0,
          HAction.write (Chunk.bytes "custom 404")])] { }
        (suppressListingHandler [("/docs/", Entry.dir)] "/docs/")).1.body,
        c.isListing = false) :=
  ⟨by decide, by decide, by decide, by decide, by decide,
    c5_dir_without_index_403 [("/docs/", Entry.dir)] "/docs/" _ { }
      (by decide) (by decide) (by decide) (by decide) (by decide)⟩

/-! ## Claim C4 -/

/-- **C4, code bug.** The modern wrapper (`StaticServeMux.interceptHandler`
in `handlers.go`) does propagate a genuine fault unmodified, but
`goserve.go`'s `ErrorHandler` contains a leftover `if p == 1` branch that
swallows the fault payload `1` and converts it into a clean
`http.Error(w, "way", 404)` response — contradicting the unwind logic's own
stated purpose of recovering only the interception token.  The three
conjuncts evaluate: (a) `ErrorHandler` swallowing the fault `1` into a 404
with body `"way"`, (b) `ErrorHandler` propagating a different fault
unchanged, (c) `interceptHandler` propagating the same fault `1`
unchanged. -/
theorem c4_errorHandler_swallows_fault_one :
    errorHandler respW [] { headers := [], status := none, body := [] }
        [HAction.fault 1] =
      ({ headers := [("Content-Type", "text/plain; charset=utf-8")],
         status := some 404, body := [Chunk.bytes "way\n"] }, none) ∧
    errorHandler respW [] { headers := [], status := none, body := [] }
        [HAction.fault 2] =
      ({ headers := [], status := none, body := [] }, some 2) ∧
    interceptHandler respW [] { headers := [], status := none, body := [] }
        [HAction.fault 1] =
      ({ headers := [], status := none, body := [] }, some 1) := by
  decide

/-! ## Claim C7 -/

lemma noFault_runPlain {σ : Type} (W : Writer σ) :
    ∀ (acts : List HAction) (st : σ), noFault acts = true →
      (runPlain W st acts).2 = none := by
  intro acts
  induction acts with
  | nil => intro st _; simp [runPlain]
  | cons a rest ih =>
    intro st hnf
    cases a with
    | writeHeader s => exact ih _ (noFault_cons hnf)
    | write c => exact ih _ (noFault_cons hnf)
    | setHeader k v => exact ih _ (noFault_cons hnf)
    | fault e => simp [noFault] at hnf

/-- With no header write in the trace, the logger's status cell is left
untouched. -/
lemma logWriter_noWH_status :
    ∀ (acts : List HAction) (st : LogState), noWH acts = true →
      (runPlain logWriter st acts).1.status = st.status := by
  intro acts
  induction acts with
  | nil => intro st _; simp [runPlain]
  | cons a rest ih =>
    intro st hw
    cases a with
    | writeHeader s => simp [noWH] at hw
    | write c => simpa [runPlain, logWriter] using ih _ (by simpa [noWH] using hw)
    | setHeader k v =>
      simpa [runPlain, logWriter] using ih _ (by simpa [noWH] using hw)
    | fault e => simp [runPlain]

/-- Once the logger's status cell agrees with the client-observable status,
a header-write-free trace keeps them in agreement. -/
lemma logWriter_synced :
    ∀ (acts : List HAction) (st : LogState), noWH acts = true →
      st.status = clientStatus st.resp →
      (runPlain logWriter st acts).1.status =
        clientStatus (runPlain logWriter st acts).1.resp := by
  intro acts
  induction acts with
  | nil => intro st _ hsync; simpa [runPlain] using hsync
  | cons a rest ih =>
    intro st hw hsync
    cases a with
    | writeHeader s => simp [noWH] at hw
    | write c =>
      have hw' : noWH rest = true := by simpa [noWH] using hw
      have hsync' : (logWriter.write st c).status =
          clientStatus (logWriter.write st c).resp := by
        rcases hq : st.resp.status with _ | q
        · have h200 : st.status = 200 := by
            simpa [clientStatus, hq] using hsync
          simp [logWriter, respW, hq, clientStatus, h200]
        · simpa [logWriter, respW, hq, clientStatus] using hsync
      have := ih (logWriter.write st c) hw' hsync'
      simpa [runPlain] using this
    | setHeader k v =>
      have hw' : noWH rest = true := by simpa [noWH] using hw
      have hsync' : (logWriter.setHeader st k v).status =
          clientStatus (logWriter.setHeader st k v).resp := by
        simpa [logWriter, respW, clientStatus] using hsync
      have := ih (logWriter.setHeader st k v) hw' hsync'
      simpa [runPlain] using this
    | fault e => simpa [runPlain] using hsync

/-- Under the single-commit discipline, starting from a fresh logging
writer over an uncommitted response, the recorded status always ends up
equal to the client-observable status. -/
lemma logWriter_tracks :
    ∀ (acts : List HAction) (st : LogState), singleCommit acts = true →
      st.resp.status = none → st.status = 200 →
      (runPlain logWriter st acts).1.status =
        clientStatus (runPlain logWriter st acts).1.resp := by
  intro acts
  induction acts with
  | nil => intro st _ hq h200; simp [runPlain, clientStatus, hq, h200]
  | cons a rest ih =>
    intro st hsc hq h200
    cases a with
    | writeHeader s =>
      have hw : noWH rest = true := by simpa [singleCommit] using hsc
      have hsync' : (logWriter.writeHeader st s).status =
          clientStatus (logWriter.writeHeader st s).resp := by
        simp [logWriter, respW, hq, clientStatus]
      have := logWriter_synced rest (logWriter.writeHeader st s) hw hsync'
      simpa [runPlain] using this
    | write c =>
      have hw : noWH rest = true := by simpa [singleCommit] using hsc
      have hsync' : (logWriter.write st c).status =
          clientStatus (logWriter.write st c).resp := by
        simp [logWriter, respW, hq, clientStatus, h200]
      have := logWriter_synced rest (logWriter.write st c) hw hsync'
      simpa [runPlain] using this
    | setHeader k v =>
      have := ih (logWriter.setHeader st k v)
        (by simpa [singleCommit] using hsc)
        (by simpa [logWriter, respW] using hq)
        (by simpa [logWriter] using h200)
      simpa [runPlain] using this
    | fault e => simp [runPlain, clientStatus, hq, h200]

/-- **C7, counterexample.** The claim as stated is false on the fault path:
`LogHandler` calls `rw.log` after `h.ServeHTTP` with no `defer`, so a panic
escaping the handler chain skips logging entirely — zero records are
emitted, not exactly one. -/
theorem c7_counterexample :
    (logHandler
      { remoteAddr := "1.2.3.4:99", host := "h", method := "GET",
        requestURI := "/x", acceptEncoding := "" }
      { headers := [], status := none, body := [] }
      [HAction.fault 7]).2.1 = ([] : List LogRec) ∧
    ([] : List LogRec).length ≠ 1 := by
  decide

/-- **C7, amended.** For every request whose handler chain completes
without an escaping fault, exactly one access log record is emitted, and —
provided the chain performs at most one header write and performs it
before any body write — its recorded status equals the status the client
actually observes, defaulting to 200 when no explicit header write
occurred.  (On a fault path no record is emitted, and a superfluous header
write after the response is committed is recorded even though the wire
ignores it.) -/
theorem c7_one_record_correct_status (req : Request) (r0 : Resp)
    (acts : List HAction) (hr : r0.status = none)
    (hnf : noFault acts = true) (hsc : singleCommit acts = true) :
    (logHandler req r0 acts).2.2 = none ∧
    (logHandler req r0 acts).2.1.length = 1 ∧
    ∀ rec ∈ (logHandler req r0 acts).2.1,
      rec.status = clientStatus (logHandler req r0 acts).1 ∧
      (noWH acts = true → rec.status = 200) := by
  have hf := noFault_runPlain logWriter acts ⟨r0, 200, 0⟩ hnf
  have htr := logWriter_tracks acts ⟨r0, 200, 0⟩ hsc (by simpa) (by simp)
  rcases hrp : runPlain logWriter ⟨r0, 200, 0⟩ acts with ⟨st, f⟩
  rw [hrp] at hf htr
  have hf' : f = none := hf
  subst hf'
  have htrack : st.status = clientStatus st.resp := htr
  refine ⟨by simp [logHandler, logHandlerRun, hrp],
    by simp [logHandler, logHandlerRun, hrp], ?_⟩
  intro rec hrec
  simp [logHandler, logHandlerRun, hrp] at hrec
  subst hrec
  refine ⟨by simpa [logHandler, logHandlerRun, hrp, logRecOf] using htrack, ?_⟩
  intro hnwh
  have hst := logWriter_noWH_status acts ⟨r0, 200, 0⟩ hnwh
  rw [hrp] at hst
  simpa [logRecOf] using hst

/-- Witness for `c7_one_record_correct_status`: a chain that commits 404
then writes a body yields one record whose status is the client-observed
404. -/
theorem c7_one_record_correct_status_witness :
    ((({ } : Resp)).status = none) ∧
    (noFault [HAction.writeHeader 404, HAction.write (Chunk.bytes "nf")] =
      true) ∧
    (singleCommit [HAction.writeHeader 404,
      HAction.write (Chunk.bytes "nf")] = true) ∧
    ((logHandler
        { remoteAddr := "1.2.3.4:99", host := "h", method := "GET",
          requestURI := "/x", acceptEncoding := "" } { }
        [HAction.writeHeader 404,
          HAction.write (Chunk.bytes "nf")]).2.2 = none ∧
      (logHandler
        { remoteAddr := "1.2.3.4:99", host := "h", method := "GET",
          requestURI := "/x", acceptEncoding := "" } { }
        [HAction.writeHeader 404,
          HAction.write (Chunk.bytes "nf")]).2.1.length = 1 ∧
      ∀ rec ∈ (logHandler
        { remoteAddr := "1.2.3.4:99", host := "h", method := "GET",
          requestURI := "/x", acceptEncoding := "" } { }
        [HAction.writeHeader 404,
          HAction.write (Chunk.bytes "nf")]).2.1,
        rec.status = clientStatus (logHandler
          { remoteAddr := "1.2.3.4:99", host := "h", method := "GET",
            requestURI := "/x", acceptEncoding := "" } { }
          [HAction.writeHeader 404,
            HAction.write (Chunk.bytes "nf")]).1 ∧
        (noWH [HAction.writeHeader 404,
          HAction.write (Chunk.bytes "nf")] = true → rec.status = 200)) :=
  ⟨by decide, by decide, by decide,
    c7_one_record_correct_status _ { } _ (by decide) (by decide) (by decide)⟩

/-! ## Claim C8 -/

lemma hGetC_hSetC_self (wh : Hdrs) (ck v : String) :
    hGetC (hSetC wh ck v) ck = v := by
  induction wh with
  | nil => simp [hGetC, hSetC]
  | cons p rest ih =>
    rcases p with ⟨k', v'⟩
    by_cases h : k' = ck
    · simp [hGetC, hSetC, h]
    · simpa [hGetC, hSetC, h] using ih

lemma hGetC_hSetC_ne (wh : Hdrs) (ck ck' v : String) (h : ck' ≠ ck) :
    hGetC (hSetC wh ck v) ck' = hGetC wh ck' := by
  induction wh with
  | nil => simp [hGetC, hSetC, Ne.symm h]
  | cons p rest ih =>
    rcases p with ⟨k', v'⟩
    by_cases hk : k' = ck
    · subst hk
      simp [hGetC, hSetC, Ne.symm h]
    · by_cases hk' : k' = ck'
      · simp [hGetC, hSetC, hk, hk', h]
      · simpa [hGetC, hSetC, hk, hk'] using ih

/-- **C8, confirmed.** For every configured list of default headers, in any
enumeration order, and every header name for which the response already
carries a (non-empty) value — whether set by the handler or by any inner
layer — `CustomHeadersHandler`'s default-installing loop leaves that value
untouched: a configured default never overwrites it. -/
theorem c8_defaults_never_overwrite (defaults : List (String × String))
    (wh : Hdrs) (k : String) (hk : hGet wh k ≠ "") :
    hGet (applyDefaults defaults wh) k = hGet wh k := by
  induction defaults generalizing wh with
  | nil => simp [applyDefaults]
  | cons d rest ih =>
    rw [applyDefaults]
    by_cases hcond : hGet wh d.1 == ""
    · by_cases hck : canonicalMIMEHeaderKey d.1 = canonicalMIMEHeaderKey k
      · exfalso
        apply hk
        have : hGet wh d.1 = hGet wh k := by
          simp [hGet, hck]
        rw [← this]
        exact eq_of_beq hcond
      · have hpres : hGet (hSet wh d.1 d.2) k = hGet wh k := by
          simp only [hGet, hSet]
          exact hGetC_hSetC_ne wh _ _ _ (fun he => hck he.symm)
        rw [if_pos hcond]
        rw [ih (hSet wh d.1 d.2) (by rw [hpres]; exact hk), hpres]
    · rw [if_neg hcond]
      exact ih wh hk

/-- Witness for `c8_defaults_never_overwrite`: a configured
`content-type` default does not overwrite an already-set `Content-Type`
(canonical-key semantics included). -/
theorem c8_defaults_never_overwrite_witness :
    (hGet [("Content-Type", "text/html")] "Content-Type" ≠ "") ∧
    hGet (applyDefaults [("content-type", "text/plain")]
        [("Content-Type", "text/html")]) "Content-Type" =
      hGet [("Content-Type", "text/html")] "Content-Type" :=
  ⟨by decide,
    c8_defaults_never_overwrite [("content-type", "text/plain")]
      [("Content-Type", "text/html")] "Content-Type" (by decide)⟩

/-! ## Claim C9 -/

/-- **C9, confirmed.** For every request whose `Accept-Encoding` does not
contain the substring `gzip`, the compression wrapper is a pure
pass-through: the full response state — bytes, status and headers — equals
what the wrapped handler alone produces on the original writer, so
configuring compression on the route makes no observable difference. -/
theorem c9_no_gzip_passthrough (h : Request → List HAction) (req : Request)
    (st : Resp) (hae : goContains req.acceptEncoding "gzip" = false) :
    gzipHandler h req st = runPlain respW st (h req) := by
  simp [gzipHandler, hae]

/-- Witness for `c9_no_gzip_passthrough` at a client advertising only
`identity`. -/
theorem c9_no_gzip_passthrough_witness :
    (goContains "identity" "gzip" = false) ∧
    gzipHandler (fun _ => [HAction.writeHeader 200,
        HAction.write (Chunk.bytes "hi")])
      { remoteAddr := "", host := "", method := "GET", requestURI := "/",
        acceptEncoding := "identity" } { } =
      runPlain respW { } [HAction.writeHeader 200,
        HAction.write (Chunk.bytes "hi")] :=
  ⟨by decide,
    c9_no_gzip_passthrough _
      { remoteAddr := "", host := "", method := "GET", requestURI := "/",
        acceptEncoding := "identity" } { } (by decide)⟩

/-! ## Claim C10 -/

lemma splitGo_ne_nil (sep : Char) : ∀ l : List Char, splitGo sep l ≠ [] := by
  intro l
  cases l with
  | nil => simp [splitGo]
  | cons c rest =>
    by_cases h : c = sep
    · simp [splitGo, h]
    · simp only [splitGo, if_neg h]
      rcases hs : splitGo sep rest with _ | ⟨g, gs⟩ <;> simp

lemma splitGo_headD (sep : Char) :
    ∀ l : List Char, (splitGo sep l).headD [] =
      l.takeWhile (fun c => c != sep) := by
  intro l
  induction l with
  | nil => simp [splitGo]
  | cons c rest ih =>
    by_cases h : c = sep
    · simp [splitGo, h, List.takeWhile]
    · rcases hs : splitGo sep rest with _ | ⟨g, gs⟩
      · exact absurd hs (splitGo_ne_nil sep rest)
      · rw [hs] at ih
        have hc : (c != sep) = true := by simp [h]
        simp [splitGo, if_neg h, hs, List.takeWhile, hc]
        simpa using ih

/-- **C10, confirmed.** For every request, the remote-address field of the
emitted access-log record (`strings.Split(req.RemoteAddr, ":")[0]`) is
exactly the substring of `RemoteAddr` before its first `:`; in particular,
for the IPv6 client address `[::1]:8080` it is the single character `[`,
not the client IP. -/
theorem c10_remote_field_before_first_colon :
    (∀ (req : Request) (st : LogState),
      (logRecOf req st).remoteAddr =
        String.mk (req.remoteAddr.toList.takeWhile (fun c => c != ':'))) ∧
    (logRecOf
      { remoteAddr := "[::1]:8080", host := "h", method := "GET",
        requestURI := "/", acceptEncoding := "" }
      ⟨{ }, 200, 0⟩).remoteAddr = "[" := by
  constructor
  · intro req st
    simp only [logRecOf, addrField]
    rw [splitGo_headD]
  · decide

end Goserve
